import Mathlib

/-!
Verification of the pinas expression-sandboxing engine (src/pinas.py).

The development shallowly embeds the module: Python tokens, the Backend
registry, the Expression scanner and validator, and the evaluation path.
The host-language pieces the module relies on (the tokenize module and
the builtin expression evaluator) are modelled for the fragment the
sandbox exposes: integers, names, calls with positional and keyword
arguments, additive and multiplicative arithmetic, and the lazy
conditional.
-/

set_option maxRecDepth 10000

/-- Kinds of tokens produced by the tokenize model, mirroring the token
kinds the source consults. -/
inductive TokType where
  | NAME
  | NUMBER
  | STRING
  | OP
  | COMMENT
  | NEWLINE
  | NL
  | INDENT
  | DEDENT
  | ENDMARKER
  | ERRORTOKEN
deriving DecidableEq, Repr

/-- A line and column position, 1-based line and 0-based column as in the
Python tokenize module. -/
structure Pos where
  row : Nat
  col : Nat
deriving DecidableEq, Repr

/-- A token with its kind, text and source span. -/
structure Token where
  type : TokType
  string : String
  start : Pos
  stop : Pos
deriving DecidableEq, Repr

/-- The fields of a function code object that NamedParameterNames and
ImpliedArguments consult. -/
structure Code where
  posonlyargcount : Nat
  argcount : Nat
  kwonlyargcount : Nat
  varnames : List String
  kwdefaults : Option (List String)
deriving DecidableEq, Repr

/-- Behaviours of the concrete model functions registered in test
backends: addXD models def f of x and keyword-only d returning x plus d;
linAD models def g of a and defaulted d returning a plus 100 times d. -/
inductive FnImpl where
  | addXD
  | linAD
deriving DecidableEq, Repr

/-- Python values of the evaluation fragment.  A suppliedFunc is the
wrapper produced by SupplyImpliedArguments: it records the wrapped
function, the list of functions with implied arguments of the backend and
the environment captured by the closure. -/
inductive Value where
  | int (n : Int)
  | bool (b : Bool)
  | str (s : String)
  | pynone
  | emptyDict
  | func (code : Option Code) (impl : FnImpl)
  | suppliedFunc (fn : Value) (sf : List (String × Value)) (captured : List (String × Value))

instance : Inhabited Value := ⟨Value.pynone⟩

/-- An evaluation namespace or environment: an association list mapping
names to values, in insertion order as a Python dict. -/
abbrev Env := List (String × Value)

/-- Exceptions that can arise inside the modelled Python evaluator. -/
inductive EvalExc where
  | pySyntaxError
  | pyNameError (name : String)
  | pyTypeError (msg : String)
  | pinasNameError (names : List String)
  | recursionError
deriving DecidableEq, Repr

/-- Exceptions of the whole pipeline.  valueError and keyError and
attributeError model the Python builtins of those names;
pinasExpressionError models PinasExpressionError; fromEval injects an
evaluator exception. -/
inductive Exc where
  | valueError (msg : String)
  | pinasExpressionError (tok : Token) (msg : String)
  | attributeError (name : String)
  | keyError (name : String)
  | fromEval (e : EvalExc)
deriving DecidableEq, Repr

/-- Association-list lookup, first match wins, as a Python dict read. -/
def alLookup {α : Type} : List (String × α) → String → Option α
  | [], _ => none
  | (k, v) :: rest, k0 => if k = k0 then some v else alLookup rest k0

/-- Key membership in an association list. -/
def alContains {α : Type} (l : List (String × α)) (k : String) : Bool :=
  (alLookup l k).isSome

/-- Association-list write, as a Python dict assignment: replace the
value in place if the key exists, otherwise append. -/
def alInsert {α : Type} : List (String × α) → String → α → List (String × α)
  | [], k, v => [(k, v)]
  | (k0, v0) :: rest, k, v =>
    if k0 = k then (k0, v) :: rest else (k0, v0) :: alInsert rest k v

/-- Add a string to a list acting as an insertion-ordered set. -/
def insertNewStr (l : List String) (x : String) : List String :=
  if l.contains x then l else l ++ [x]

/-- Union of two insertion-ordered string sets. -/
def unionNewStr (l : List String) (xs : List String) : List String :=
  xs.foldl insertNewStr l

/-- Deduplicating union used for Python set construction from lists. -/
def dedupUnion (a b : List String) : List String :=
  unionNewStr (unionNewStr [] a) b

/-- A run of n spaces. -/
def spaces (n : Nat) : String :=
  String.mk (List.replicate n ' ')

-- Whitelists and blacklist copied from the source module.

/-- Builtin names allowed by default (default_allow_builtin_names). -/
def default_allow_builtin_names : List String :=
  ["False", "None", "True", "abs", "all", "any", "bin", "bytes", "chr",
   "float", "hex", "int", "len", "max", "min", "oct", "ord", "pow",
   "range", "round", "sorted", "str", "sum"]

/-- Non-function identifiers allowed in expressions
(default_allow_keywords). -/
def default_allow_keywords : List String :=
  ["and", "or", "not", "in", "if", "else", "for"]

/-- Method names allowed after attribute access (default_allow_methods),
kept verbatim from the source including its duplicate entry. -/
def default_allow_methods : List String :=
  ["encode", "decode", "from_hex", "split", "join", "upper", "lower",
   "casefold", "replace", "find", "format", "isalpha", "isdigit",
   "isascii", "isdecimal", "isdigit", "isidentifier", "islower",
   "isupper", "isnumeric", "isprintable", "isspace", "strip", "lstrip",
   "rstrip", "startswith", "endswith", "rjust", "ljust", "zfill",
   "index"]

/-- The fixed blacklist of dangerous builtin names
(known_unsafe_builtins), kept verbatim including duplicates. -/
def known_unsafe_builtins : List String :=
  ["getattr", "setattr", "delattr", "vars", "open", "__import__",
   "compile", "exec", "eval", "globals", "locals", "memoryview",
   "delattr", "__loader__", "__build_class__", "property",
   "staticmethod", "classmethod", "type", "object", "super", "vars",
   "dir"]

/-- Names available to use as named parameters: the code-object slice
varnames from posonlyargcount up to argcount plus kwonlyargcount.
Objects without a code attribute yield the empty tuple. -/
def NamedParameterNames (v : Value) : List String :=
  match v with
  | .func (some co) _ =>
    ((co.varnames.take (co.argcount + co.kwonlyargcount)).drop co.posonlyargcount)
  | _ => []

/-- Keyword-only arguments with no default value.  Objects without a
code attribute yield the empty tuple; if any keyword-only argument has a
default, none are implied. -/
def ImpliedArguments (v : Value) : List String :=
  match v with
  | .func (some co) _ =>
    if co.kwonlyargcount = 0 then []
    else
      let kwonlyargs := (co.varnames.take (co.argcount + co.kwonlyargcount)).drop co.argcount
      match co.kwdefaults with
      | none => kwonlyargs
      | some ks =>
        if kwonlyargs.any (fun a => ks.contains a) then [] else kwonlyargs
  | _ => []

/-- The context for expression evaluation, mirroring the fields the
Backend constructor stores. -/
structure Backend where
  allow_methods : List String
  allow_keywords : List String
  allow_keywords_and_methods : List String
  predefined_names : List String
  module_functions : List (String × Value)
  supplyImpliedFor : List (String × Value)
  predefined_functions : List (String × Value)
  npn_for : List (String × List String)

/-- The empty backend, used only as a default when destructuring a
construction result that is known to have succeeded. -/
def emptyBackend : Backend :=
  { allow_methods := [], allow_keywords := [], allow_keywords_and_methods := [],
    predefined_names := [], module_functions := [], supplyImpliedFor := [],
    predefined_functions := [], npn_for := [] }

instance : Inhabited Backend := ⟨emptyBackend⟩

/-- Look every allowed builtin name up in the builtins module table,
failing with AttributeError as getattr does. -/
def getAttrVals (builtinsMod : List (String × Value)) :
    List String → Except Exc (List (String × Value))
  | [] => .ok []
  | n :: rest =>
    match alLookup builtinsMod n with
    | some v =>
      match getAttrVals builtinsMod rest with
      | .ok l => .ok ((n, v) :: l)
      | .error e => .error e
    | none => .error (.attributeError n)

/-- Whether a string starts with an underscore. -/
def startsWithUnderscore (s : String) : Bool :=
  match s.data with
  | c :: _ => c = '_'
  | [] => false

/-- The allowed named parameters recorded for one function: its named
parameter names that do not start with an underscore, minus its implied
arguments. -/
def npnEntry (v : Value) : List String :=
  ((NamedParameterNames v).filter (fun n => !(startsWithUnderscore n))).filter
    (fun n => !((ImpliedArguments v).contains n))

/-- The Backend constructor.  builtinsMod models the builtins module as
a name-to-value table; module models the host module restricted to its
exported table in order of its all list.  Construction fails with
ValueError when the allowed builtin names meet the blacklist, before any
builtin lookup. -/
def Backend.init (builtinsMod module : List (String × Value))
    (abn akw amth : Option (List String)) : Except Exc Backend :=
  let allow_builtin_names := abn.getD default_allow_builtin_names
  if allow_builtin_names.any (fun n => known_unsafe_builtins.contains n) then
    .error (.valueError "")
  else
    match getAttrVals builtinsMod allow_builtin_names with
    | .error e => .error e
    | .ok allow_builtin_functions =>
      let allow_keywords := akw.getD default_allow_keywords
      let allow_methods := amth.getD default_allow_methods
      let module_functions := module
      .ok {
        allow_methods := allow_methods
        allow_keywords := allow_keywords
        allow_keywords_and_methods := dedupUnion allow_keywords allow_methods
        predefined_names := dedupUnion (module.map Prod.fst) allow_builtin_names
        module_functions := module_functions
        supplyImpliedFor :=
          module_functions.filter (fun p => decide (0 < (ImpliedArguments p.2).length))
        predefined_functions :=
          module_functions ++
            allow_builtin_functions.filter (fun p => !(alContains module_functions p.1))
        npn_for :=
          (allow_builtin_functions ++ module_functions).foldl
            (fun acc p => alInsert acc p.1 (npnEntry p.2)) []
      }

/-- Extract the backend from a construction result known to succeed. -/
def backendOrEmpty (r : Except Exc Backend) : Backend :=
  match r with
  | .ok b => b
  | .error _ => emptyBackend

-- Tokenizer model: a simplified Python tokenize.generate_tokens for the
-- character set the sandbox grammar uses.

/-- Operators of three characters recognised by the tokenizer model. -/
def threeCharOps : List String := ["**=", "//=", "<<=", ">>="]

/-- Operators of two characters recognised by the tokenizer model. -/
def twoCharOps : List String :=
  ["==", "!=", "<=", ">=", "**", "//", "<<", ">>", "->", ":=",
   "+=", "-=", "*=", "/=", "%=", "&=", "|=", "^=", "@="]

/-- Operators of one character recognised by the tokenizer model. -/
def oneCharOps : List String :=
  ["+", "-", "*", "/", "%", "&", "|", "^", "~", "<", ">", "=", ".",
   ",", "(", ")", "[", "]", ":", ";", "@"]

/-- Longest-match operator recognition. -/
def matchOp (l : List Char) : Option String :=
  match l with
  | a :: b :: c :: _ =>
    if threeCharOps.contains (String.mk [a, b, c]) then some (String.mk [a, b, c])
    else if twoCharOps.contains (String.mk [a, b]) then some (String.mk [a, b])
    else if oneCharOps.contains (String.mk [a]) then some (String.mk [a])
    else none
  | [a, b] =>
    if twoCharOps.contains (String.mk [a, b]) then some (String.mk [a, b])
    else if oneCharOps.contains (String.mk [a]) then some (String.mk [a])
    else none
  | [a] =>
    if oneCharOps.contains (String.mk [a]) then some (String.mk [a]) else none
  | [] => none

/-- Identifier start characters. -/
def isIdentStart (c : Char) : Bool := c.isAlpha || c = '_'

/-- Identifier continuation characters. -/
def isIdentChar (c : Char) : Bool := c.isAlphanum || c = '_'

/-- The worker of the tokenizer model.  It tracks the row, the column and
whether the current line already produced a token (which decides NEWLINE
against NL), and ends the stream with the synthetic NEWLINE and the
ENDMARKER the Python tokenizer emits. -/
def pyTokAux (fuel : Nat) (cs : List Char) (row col : Nat) (seen : Bool) : List Token :=
  match fuel with
  | 0 => []
  | fuel + 1 =>
    match cs with
    | [] =>
      if col = 0 then [⟨.ENDMARKER, "", ⟨row, 0⟩, ⟨row, 0⟩⟩]
      else [⟨.NEWLINE, "", ⟨row, col⟩, ⟨row, col + 1⟩⟩,
            ⟨.ENDMARKER, "", ⟨row + 1, 0⟩, ⟨row + 1, 0⟩⟩]
    | c :: rest =>
      if c = ' ' then pyTokAux fuel rest row (col + 1) seen
      else if c = '\n' then
        ⟨if seen then .NEWLINE else .NL, "\n", ⟨row, col⟩, ⟨row, col + 1⟩⟩ ::
          pyTokAux fuel rest (row + 1) 0 false
      else if c = '#' then
        let com := (c :: rest).takeWhile (fun ch => ch ≠ '\n')
        ⟨.COMMENT, String.mk com, ⟨row, col⟩, ⟨row, col + com.length⟩⟩ ::
          pyTokAux fuel ((c :: rest).dropWhile (fun ch => ch ≠ '\n')) row (col + com.length) seen
      else if isIdentStart c then
        let idc := (c :: rest).takeWhile isIdentChar
        ⟨.NAME, String.mk idc, ⟨row, col⟩, ⟨row, col + idc.length⟩⟩ ::
          pyTokAux fuel ((c :: rest).dropWhile isIdentChar) row (col + idc.length) true
      else if c.isDigit then
        let num := (c :: rest).takeWhile Char.isDigit
        ⟨.NUMBER, String.mk num, ⟨row, col⟩, ⟨row, col + num.length⟩⟩ ::
          pyTokAux fuel ((c :: rest).dropWhile Char.isDigit) row (col + num.length) true
      else
        match matchOp (c :: rest) with
        | some op =>
          ⟨.OP, op, ⟨row, col⟩, ⟨row, col + op.length⟩⟩ ::
            pyTokAux fuel ((c :: rest).drop op.length) row (col + op.length) true
        | none =>
          ⟨.ERRORTOKEN, String.mk [c], ⟨row, col⟩, ⟨row, col + 1⟩⟩ ::
            pyTokAux fuel rest row (col + 1) true

/-- Tokenize a source string, as tokenize.generate_tokens does. -/
def pyTokenize (s : String) : List Token :=
  pyTokAux (s.length + 2) s.data 1 0 false

-- The Expression constructor: one pass over the token stream.

/-- State threaded through the token loop of the Expression constructor:
the unbound names seen, the named parameters used, the named parameters
made available by functions referenced so far, the rebuilt expression
text, the kept tokens, and the end position and identity of the previous
kept token. -/
structure ScanState where
  unbound : List String
  usedNamed : List String
  available : List String
  netExpr : List String
  netToks : List Token
  prevEnd : Pos
  prev : Option Token
deriving Repr

/-- The state at the start of the token loop. -/
def startScanState : ScanState :=
  { unbound := [], usedNamed := [], available := [], netExpr := [],
    netToks := [], prevEnd := ⟨1, 0⟩, prev := none }

/-- Token kinds dropped from the rebuilt expression. -/
def isSkipType : TokType → Bool
  | .COMMENT | .NEWLINE | .INDENT | .DEDENT | .ENDMARKER | .NL => true
  | _ => false

/-- The allowed named parameters recorded for a name, defaulting to the
empty tuple as dict get does. -/
def npnLookup (b : Backend) (n : String) : List String :=
  (alLookup b.npn_for n).getD []

/-- Processing of an identifier that is not a method reference: extend
the available named parameters and record the name as unbound. -/
def nameUpdate (b : Backend) (st : ScanState) (t : Token) : ScanState :=
  { st with available := unionNewStr st.available (npnLookup b t.string),
            unbound := insertNewStr st.unbound t.string }

/-- Layout normalisation: when a token does not start where the previous
kept token ended, rejoin with the original-width space run on the same
row and with a fixed two-space gap across rows. -/
def applyGap (st : ScanState) (t : Token) : ScanState :=
  if t.start = st.prevEnd then st
  else if t.start.row = st.prevEnd.row then
    { st with netExpr := st.netExpr ++ [spaces (t.start.col - st.prevEnd.col)] }
  else
    { st with netExpr := st.netExpr ++ ["  "] }

/-- The validation checks of the token loop, in source order: method
references after a dot, error tokens, and operators ending in the equal
sign. -/
def scanChecks (b : Backend) (st : ScanState) (t : Token) : Except Exc ScanState :=
  if t.type = .NAME then
    match st.prev with
    | some p =>
      if p.string = "." then
        if b.allow_methods.contains t.string then .ok st
        else .error (.pinasExpressionError t ("Illegal method ." ++ t.string))
      else .ok (nameUpdate b st t)
    | none => .ok (nameUpdate b st t)
  else if t.type = .ERRORTOKEN then
    .error (.pinasExpressionError t "Syntax error")
  else if t.type = .OP then
    if t.string.back = '=' then
      if t.string = "=" then
        match st.prev with
        | some p =>
          if p.type = .NAME then
            if st.available.contains p.string then
              .ok { st with usedNamed := insertNewStr st.usedNamed p.string }
            else .error (.pinasExpressionError t ("No such named parameter: " ++ p.string))
          else .error (.pinasExpressionError t "Syntax error")
        | none => .error (.pinasExpressionError t "Syntax error")
      else if (["=", "==", "!=", "<=", ">="] : List String).contains t.string then .ok st
      else .error (.pinasExpressionError t ("Illegal operator " ++ t.string))
    else .ok st
  else .ok st

/-- Keep a token: skipped kinds leave the state unchanged, others are
appended to the rebuilt text and become the previous token. -/
def appendNet (st : ScanState) (t : Token) : ScanState :=
  if isSkipType t.type then st
  else { st with netToks := st.netToks ++ [t],
                 netExpr := st.netExpr ++ [t.string],
                 prevEnd := t.stop, prev := some t }

/-- One iteration of the token loop of the Expression constructor. -/
def scanStep (b : Backend) (st : ScanState) (t : Token) : Except Exc ScanState :=
  match scanChecks b (applyGap st t) t with
  | .error e => .error e
  | .ok st2 => .ok (appendNet st2 t)

/-- The whole token loop. -/
def scanTokens (b : Backend) : ScanState → List Token → Except Exc ScanState
  | st, [] => .ok st
  | st, t :: ts =>
    match scanStep b st t with
    | .error e => .error e
    | .ok st2 => scanTokens b st2 ts

/-- Distribute one implied argument into the bound names when it is a
predefined name of the backend, and into the free variables otherwise. -/
def addImpliedOne (bPred : List String) (pf : List String × List String)
    (ia : String) : List String × List String :=
  if bPred.contains ia then (insertNewStr pf.1 ia, pf.2)
  else (pf.1, insertNewStr pf.2 ia)

/-- For every registered function with implied arguments that the
expression references, distribute its implied arguments. -/
def addImplied (bPred : List String) :
    List (String × Value) → List String → List String → List String × List String
  | [], pred, free => (pred, free)
  | (n, fn) :: rest, pred, free =>
    if pred.contains n then
      let pf := (ImpliedArguments fn).foldl (addImpliedOne bPred) (pred, free)
      addImplied bPred rest pf.1 pf.2
    else addImplied bPred rest pred free

/-- Characters removed by the Python strip method with no argument. -/
def isStripChar (c : Char) : Bool :=
  c = ' ' || c = '\n' || c = '\t' || c = '\r'

/-- Remove leading and trailing whitespace, as the strip method does. -/
def stripSpaces (s : String) : String :=
  String.mk (((s.data.dropWhile isStripChar).reverse.dropWhile isStripChar).reverse)

/-- A compiled expression: the backend reference and the fields the
constructor stores. -/
structure Expression where
  backend : Backend
  expr : String
  net_tokens : List Token
  predefined_names : List String
  free_variables : List String
  base_namespace : Env

/-- Build the base namespace by copying the registered value of every
bound name, failing with KeyError on a dangling name. -/
def buildBase (pf : Env) : List String → Env → Except Exc Env
  | [], env => .ok env
  | n :: rest, env =>
    match alLookup pf n with
    | some v => buildBase pf rest (alInsert env n v)
    | none => .error (.keyError n)

/-- Assemble the Expression fields after a successful token loop. -/
def mkExpression (b : Backend) (st : ScanState) : Except Exc Expression :=
  let exprText := stripSpaces (String.join st.netExpr)
  let predefined0 :=
    (st.unbound.filter (fun n => b.predefined_names.contains n)).filter
      (fun n => !(b.allow_keywords_and_methods.contains n))
  let free0 :=
    (st.unbound.filter (fun n => !(b.predefined_names.contains n))).filter
      (fun n => !(b.allow_keywords_and_methods.contains n))
  let pf := addImplied b.predefined_names b.supplyImpliedFor predefined0 free0
  match buildBase b.predefined_functions pf.1 [("__builtins__", Value.emptyDict)] with
  | .ok base =>
    .ok { backend := b, expr := exprText, net_tokens := st.netToks,
          predefined_names := pf.1, free_variables := pf.2, base_namespace := base }
  | .error e => .error e

/-- The Expression constructor: tokenize the text, run the token loop and
assemble the compiled expression. -/
def Expression.init (s : String) (b : Backend) : Except Exc Expression :=
  match scanTokens b startScanState (pyTokenize s) with
  | .error e => .error e
  | .ok st => mkExpression b st

-- Model of the host eval primitive for the expression fragment the
-- sandbox exposes: a recursive-descent parse of the significant tokens
-- followed by a tree walk.

/-- Binary operators of the evaluation fragment. -/
inductive BinOp where
  | add
  | sub
  | mul
deriving DecidableEq, Repr

/-- Abstract syntax of the evaluation fragment. -/
inductive PyAst where
  | num (n : Int)
  | boolLit (b : Bool)
  | noneLit
  | name (s : String)
  | binop (op : BinOp) (a b : PyAst)
  | ternary (thn cond els : PyAst)
  | call (f : PyAst) (args : List PyAst) (kwargs : List (String × PyAst))

/-- Reserved words that never parse as a plain name atom. -/
def reservedWords : List String :=
  ["if", "else", "and", "or", "not", "in", "for"]

/-- Read a nonempty run of decimal digits as a number. -/
def decDigits? (l : List Char) : Option Nat :=
  if l.isEmpty then none
  else if l.all Char.isDigit then
    some (l.foldl (fun acc c => acc * 10 + (c.toNat - 48)) 0)
  else none

mutual

/-- Parse a conditional expression: an additive expression optionally
followed by the lazy if-else form. -/
def parseTern : Nat → List Token → Except EvalExc (PyAst × List Token)
  | 0, _ => .error .recursionError
  | fuel + 1, toks =>
    match parseAddE fuel toks with
    | .error e => .error e
    | .ok (a, r) =>
      match r with
      | t :: r2 =>
        if t.type = .NAME ∧ t.string = "if" then
          match parseAddE fuel r2 with
          | .error e => .error e
          | .ok (c, r3) =>
            match r3 with
            | u :: r4 =>
              if u.type = .NAME ∧ u.string = "else" then
                match parseTern fuel r4 with
                | .error e => .error e
                | .ok (b, r5) => .ok (.ternary a c b, r5)
              else .error .pySyntaxError
            | [] => .error .pySyntaxError
        else .ok (a, r)
      | [] => .ok (a, [])

/-- Parse an additive expression. -/
def parseAddE : Nat → List Token → Except EvalExc (PyAst × List Token)
  | 0, _ => .error .recursionError
  | fuel + 1, toks =>
    match parseMulE fuel toks with
    | .error e => .error e
    | .ok (a, r) => parseAddLoop fuel a r

/-- Left-associative chaining of plus and minus. -/
def parseAddLoop : Nat → PyAst → List Token → Except EvalExc (PyAst × List Token)
  | 0, _, _ => .error .recursionError
  | fuel + 1, a, toks =>
    match toks with
    | t :: r2 =>
      if t.type = .OP ∧ t.string = "+" then
        match parseMulE fuel r2 with
        | .error e => .error e
        | .ok (b, r3) => parseAddLoop fuel (.binop .add a b) r3
      else if t.type = .OP ∧ t.string = "-" then
        match parseMulE fuel r2 with
        | .error e => .error e
        | .ok (b, r3) => parseAddLoop fuel (.binop .sub a b) r3
      else .ok (a, toks)
    | [] => .ok (a, [])

/-- Parse a multiplicative expression. -/
def parseMulE : Nat → List Token → Except EvalExc (PyAst × List Token)
  | 0, _ => .error .recursionError
  | fuel + 1, toks =>
    match parsePostE fuel toks with
    | .error e => .error e
    | .ok (a, r) => parseMulLoop fuel a r

/-- Left-associative chaining of times. -/
def parseMulLoop : Nat → PyAst → List Token → Except EvalExc (PyAst × List Token)
  | 0, _, _ => .error .recursionError
  | fuel + 1, a, toks =>
    match toks with
    | t :: r2 =>
      if t.type = .OP ∧ t.string = "*" then
        match parsePostE fuel r2 with
        | .error e => .error e
        | .ok (b, r3) => parseMulLoop fuel (.binop .mul a b) r3
      else .ok (a, toks)
    | [] => .ok (a, [])

/-- Parse an atom followed by call suffixes. -/
def parsePostE : Nat → List Token → Except EvalExc (PyAst × List Token)
  | 0, _ => .error .recursionError
  | fuel + 1, toks =>
    match parseAtomE fuel toks with
    | .error e => .error e
    | .ok (a, r) => parseCallLoop fuel a r

/-- Chain call suffixes onto a parsed head. -/
def parseCallLoop : Nat → PyAst → List Token → Except EvalExc (PyAst × List Token)
  | 0, _, _ => .error .recursionError
  | fuel + 1, a, toks =>
    match toks with
    | t :: r2 =>
      if t.type = .OP ∧ t.string = "(" then
        match parseArgsE fuel r2 false with
        | .error e => .error e
        | .ok (args, kwargs, r3) => parseCallLoop fuel (.call a args kwargs) r3
      else .ok (a, toks)
    | [] => .ok (a, [])

/-- Parse a call argument list up to and including the closing
parenthesis; positional arguments may not follow keyword arguments. -/
def parseArgsE : Nat → List Token → Bool →
    Except EvalExc (List PyAst × List (String × PyAst) × List Token)
  | 0, _, _ => .error .recursionError
  | fuel + 1, toks, kwSeen =>
    match toks with
    | t :: rest =>
      if t.type = .OP ∧ t.string = ")" then .ok ([], [], rest)
      else
        match toks with
        | n :: eq :: rest2 =>
          if n.type = .NAME ∧ !(reservedWords.contains n.string) ∧
             eq.type = .OP ∧ eq.string = "=" then
            match parseTern fuel rest2 with
            | .error e => .error e
            | .ok (v, r3) =>
              match r3 with
              | c :: r4 =>
                if c.type = .OP ∧ c.string = "," then
                  match parseArgsE fuel r4 true with
                  | .error e => .error e
                  | .ok (as, ks, r5) => .ok (as, (n.string, v) :: ks, r5)
                else if c.type = .OP ∧ c.string = ")" then
                  .ok ([], [(n.string, v)], r4)
                else .error .pySyntaxError
              | [] => .error .pySyntaxError
          else parsePosArg fuel toks kwSeen
        | _ => parsePosArg fuel toks kwSeen
    | [] => .error .pySyntaxError

/-- Parse one positional argument and the rest of the argument list. -/
def parsePosArg : Nat → List Token → Bool →
    Except EvalExc (List PyAst × List (String × PyAst) × List Token)
  | 0, _, _ => .error .recursionError
  | fuel + 1, toks, kwSeen =>
    if kwSeen then .error .pySyntaxError
    else
      match parseTern fuel toks with
      | .error e => .error e
      | .ok (v, r3) =>
        match r3 with
        | c :: r4 =>
          if c.type = .OP ∧ c.string = "," then
            match parseArgsE fuel r4 kwSeen with
            | .error e => .error e
            | .ok (as, ks, r5) => .ok (v :: as, ks, r5)
          else if c.type = .OP ∧ c.string = ")" then
            .ok ([v], [], r4)
          else .error .pySyntaxError
        | [] => .error .pySyntaxError

/-- Parse an atom: a number, a constant, a name or a parenthesised
expression. -/
def parseAtomE : Nat → List Token → Except EvalExc (PyAst × List Token)
  | 0, _ => .error .recursionError
  | fuel + 1, toks =>
    match toks with
    | t :: rest =>
      if t.type = .NUMBER then
        match decDigits? t.string.data with
        | some n => .ok (.num (Int.ofNat n), rest)
        | none => .error .pySyntaxError
      else if t.type = .NAME then
        if t.string = "True" then .ok (.boolLit true, rest)
        else if t.string = "False" then .ok (.boolLit false, rest)
        else if t.string = "None" then .ok (.noneLit, rest)
        else if reservedWords.contains t.string then .error .pySyntaxError
        else .ok (.name t.string, rest)
      else if t.type = .OP ∧ t.string = "(" then
        match parseTern fuel rest with
        | .error e => .error e
        | .ok (a, r2) =>
          match r2 with
          | c :: r3 =>
            if c.type = .OP ∧ c.string = ")" then .ok (a, r3)
            else .error .pySyntaxError
          | [] => .error .pySyntaxError
      else .error .pySyntaxError
    | [] => .error .pySyntaxError

end

/-- Coerce a value to an integer for arithmetic, as Python does with
booleans. -/
def toArithInt (v : Value) : Option Int :=
  match v with
  | .int n => some n
  | .bool b => some (if b then 1 else 0)
  | _ => none

/-- Binary arithmetic of the fragment: integer arithmetic with boolean
coercion, string concatenation under plus, TypeError otherwise. -/
def pyBinOp (op : BinOp) (a b : Value) : Except EvalExc Value :=
  match op, a, b with
  | .add, .str x, .str y => .ok (.str (x ++ y))
  | _, _, _ =>
    match toArithInt a, toArithInt b with
    | some x, some y =>
      .ok (.int (match op with | .add => x + y | .sub => x - y | .mul => x * y))
    | _, _ => .error (.pyTypeError "unsupported operand type")

/-- Python truthiness for the fragment values. -/
def truthy (v : Value) : Bool :=
  match v with
  | .int n => decide (n ≠ 0)
  | .bool b => b
  | .str s => !(s.isEmpty)
  | .pynone => false
  | .emptyDict => false
  | .func _ _ => true
  | .suppliedFunc _ _ _ => true

/-- SupplyImpliedArguments: wrap a function so that it draws values for
its implied arguments from the namespace.  The Python closure keeps a
live reference to the namespace dict, which the caller goes on to mutate
by installing the remaining wrappers; the model therefore records the
wrapper table sf next to the captured environment and replays the
installation at call time. -/
def SupplyImpliedArguments (fn : Value) (sf : List (String × Value)) (ns : Env) : Value :=
  if (ImpliedArguments fn).isEmpty then fn else .suppliedFunc fn sf ns

/-- Install the implied-argument wrappers over an environment, as the
final loop of effective_namespace does. -/
def wrapImplied (sf : List (String × Value)) (eff : Env) : Env :=
  sf.foldl
    (fun acc p =>
      if alContains acc p.1 then alInsert acc p.1 (SupplyImpliedArguments p.2 sf eff)
      else acc)
    eff

/-- Apply a concrete registered function.  addXD models def f of
positional x and keyword-only d returning x plus d; linAD models def g
of positional a and defaulted d returning a plus 100 times d. -/
def applyPrim (impl : FnImpl) (args : List Value)
    (kwargs : List (String × Value)) : Except EvalExc Value :=
  match impl with
  | .addXD =>
    match args, alLookup kwargs "d" with
    | [x], some d =>
      if kwargs.all (fun p => p.1 == "d") then pyBinOp .add x d
      else .error (.pyTypeError "unexpected keyword argument")
    | [], some d =>
      match alLookup kwargs "x" with
      | some x =>
        if kwargs.all (fun p => p.1 == "d" || p.1 == "x") then pyBinOp .add x d
        else .error (.pyTypeError "unexpected keyword argument")
      | none => .error (.pyTypeError "bad arguments")
    | _, _ => .error (.pyTypeError "bad arguments")
  | .linAD =>
    match args with
    | [a] =>
      if kwargs.all (fun p => p.1 == "d") then
        match pyBinOp .mul (.int 100) ((alLookup kwargs "d").getD (.int 0)) with
        | .ok v => pyBinOp .add a v
        | .error e => .error e
      else .error (.pyTypeError "unexpected keyword argument")
    | [] =>
      match alLookup kwargs "a" with
      | some a =>
        if kwargs.all (fun p => p.1 == "a" || p.1 == "d") then
          match pyBinOp .mul (.int 100) ((alLookup kwargs "d").getD (.int 0)) with
          | .ok v => pyBinOp .add a v
          | .error e => .error e
        else .error (.pyTypeError "unexpected keyword argument")
      | none => .error (.pyTypeError "bad arguments")
    | [a, d] =>
      if kwargs.isEmpty then
        match pyBinOp .mul (.int 100) d with
        | .ok v => pyBinOp .add a v
        | .error e => .error e
      else .error (.pyTypeError "unexpected keyword argument")
    | _ => .error (.pyTypeError "bad arguments")

/-- Call a value.  A suppliedFunc first gathers its implied arguments
from the final environment, failing with PinasNameError listing every
missing implied name, then merges the explicit keyword arguments over
them and calls the wrapped function. -/
def applyValue (v : Value) (args : List Value)
    (kwargs : List (String × Value)) : Except EvalExc Value :=
  match v with
  | .func _ impl => applyPrim impl args kwargs
  | .suppliedFunc fn sf captured =>
    let ns := wrapImplied sf captured
    let iargs := ImpliedArguments fn
    let missing := iargs.filter (fun i => !(alContains ns i))
    if missing.isEmpty then
      let full := iargs.foldl (fun acc i => alInsert acc i ((alLookup ns i).getD .pynone)) []
      let merged := kwargs.foldl (fun acc p => alInsert acc p.1 p.2) full
      match fn with
      | .func _ impl => applyPrim impl args merged
      | _ => .error (.pyTypeError "object is not callable")
    else .error (.pinasNameError missing)
  | _ => .error (.pyTypeError "object is not callable")

mutual

/-- The tree walk of the evaluator model.  Name lookup that misses the
environment raises NameError, since the expression environments bind
the builtins key to an empty dict. -/
def evalAst : Nat → PyAst → Env → Except EvalExc Value
  | 0, _, _ => .error .recursionError
  | fuel + 1, ast, env =>
    match ast with
    | .num n => .ok (.int n)
    | .boolLit b => .ok (.bool b)
    | .noneLit => .ok .pynone
    | .name s =>
      match alLookup env s with
      | some v => .ok v
      | none => .error (.pyNameError s)
    | .binop op a b =>
      match evalAst fuel a env with
      | .error e => .error e
      | .ok va =>
        match evalAst fuel b env with
        | .error e => .error e
        | .ok vb => pyBinOp op va vb
    | .ternary thn c els =>
      match evalAst fuel c env with
      | .error e => .error e
      | .ok vc => if truthy vc then evalAst fuel thn env else evalAst fuel els env
    | .call f args kwargs =>
      match evalAst fuel f env with
      | .error e => .error e
      | .ok vf =>
        match evalArgs fuel args env with
        | .error e => .error e
        | .ok vargs =>
          match evalKwargs fuel kwargs env with
          | .error e => .error e
          | .ok vkw => applyValue vf vargs vkw

/-- Evaluate positional arguments left to right. -/
def evalArgs : Nat → List PyAst → Env → Except EvalExc (List Value)
  | 0, _, _ => .error .recursionError
  | _ + 1, [], _ => .ok []
  | fuel + 1, a :: rest, env =>
    match evalAst fuel a env with
    | .error e => .error e
    | .ok v =>
      match evalArgs fuel rest env with
      | .error e => .error e
      | .ok vs => .ok (v :: vs)

/-- Evaluate keyword arguments left to right. -/
def evalKwargs : Nat → List (String × PyAst) → Env →
    Except EvalExc (List (String × Value))
  | 0, _, _ => .error .recursionError
  | _ + 1, [], _ => .ok []
  | fuel + 1, (n, a) :: rest, env =>
    match evalAst fuel a env with
    | .error e => .error e
    | .ok v =>
      match evalKwargs fuel rest env with
      | .error e => .error e
      | .ok vs => .ok ((n, v) :: vs)

end

/-- The tokens that carry program text. -/
def sigToks (toks : List Token) : List Token :=
  toks.filter (fun t => !(isSkipType t.type))

/-- The eval primitive model: tokenize, reject lexically broken input as
SyntaxError, parse the significant tokens demanding full consumption,
then walk the tree under the given environment. -/
def pyEval (s : String) (env : Env) : Except EvalExc Value :=
  let toks := pyTokenize s
  if toks.any (fun t => decide (t.type = TokType.ERRORTOKEN)) then .error .pySyntaxError
  else
    match parseTern (s.length + 50) (sigToks toks) with
    | .error e => .error e
    | .ok (ast, []) => evalAst (s.length + 50) ast env
    | .ok (_, _ :: _) => .error .pySyntaxError

/-- The free-variable loop of effective_namespace: a free variable whose
name already exists in the environment raises ValueError; otherwise its
value is taken from the caller namespace when present and skipped when
absent. -/
def addFreeVars : Env → List String → Env → Except String Env
  | eff, [], _ => .ok eff
  | eff, n :: rest, ns =>
    if alContains eff n then .error (n ++ " is ambiguous")
    else
      match alLookup ns n with
      | some v => addFreeVars (alInsert eff n v) rest ns
      | none => addFreeVars eff rest ns

/-- Build the globals environment for one evaluation: copy the base
namespace, add caller values for free variables, then install the
implied-argument wrappers. -/
def Expression.effective_namespace (e : Expression) (ns : Env) : Except String Env :=
  match addFreeVars e.base_namespace e.free_variables ns with
  | .error m => .error m
  | .ok eff => .ok (wrapImplied e.backend.supplyImpliedFor eff)

/-- Compute the value of the expression.  A NameError from the evaluator
whose name is among the unsupplied free variables becomes a
PinasNameError listing all of them; any other failure propagates
unchanged. -/
def Expression.eval (e : Expression) (ns : Env) : Except Exc Value :=
  match e.effective_namespace ns with
  | .error m => .error (.valueError m)
  | .ok eff =>
    match pyEval e.expr eff with
    | .ok v => .ok v
    | .error (.pyNameError nm) =>
      let missing := e.free_variables.filter (fun x => !(alContains ns x))
      if missing.contains nm then .error (.fromEval (.pinasNameError missing))
      else .error (.fromEval (.pyNameError nm))
    | .error ee => .error (.fromEval ee)

/-- Compile then evaluate, the composite entry point of the spec. -/
def compileEval (s : String) (b : Backend) (ns : Env) : Except Exc Value :=
  match Expression.init s b with
  | .error e => .error e
  | .ok e => e.eval ns

-- A concrete host configuration used by the claim instances: the module
-- exports f of positional x and keyword-only implied d, returning x
-- plus d, and g of positional a and defaulted d, returning a plus 100
-- times d; the builtins table carries the constants the allowed names
-- need.

/-- Code object of def f of x and keyword-only d with no default. -/
def fCode : Code :=
  { posonlyargcount := 0, argcount := 1, kwonlyargcount := 1,
    varnames := ["x", "d"], kwdefaults := none }

/-- The registered function f. -/
def fVal : Value := .func (some fCode) .addXD

/-- Code object of def g of a and defaulted d. -/
def gCode : Code :=
  { posonlyargcount := 0, argcount := 2, kwonlyargcount := 0,
    varnames := ["a", "d"], kwdefaults := none }

/-- The registered function g. -/
def gVal : Value := .func (some gCode) .linAD

/-- A small builtins module table. -/
def builtinsSmall : List (String × Value) :=
  [("True", .bool true), ("False", .bool false), ("None", .pynone)]

/-- The exported table of the host module. -/
def moduleFG : List (String × Value) := [("f", fVal), ("g", gVal)]

/-- The backend built from the host module with the allowed builtin
names reduced to the constant True. -/
def testBackend : Backend :=
  backendOrEmpty (Backend.init builtinsSmall moduleFG (some ["True"]) none none)

-- Auxiliary definitions used by the statements below.

/-- Whether a result is a PinasExpressionError. -/
def isExprError (r : Except Exc Value) : Bool :=
  match r with
  | .error (.pinasExpressionError _ _) => true
  | _ => false

/-- Whether an Except result is in the ok branch. -/
def isOkE {ε α : Type} (r : Except ε α) : Bool :=
  match r with
  | .ok _ => true
  | .error _ => false

/-- A placeholder expression, used only when destructuring a compile
result that is known to have succeeded. -/
def emptyExpression : Expression :=
  { backend := emptyBackend, expr := "", net_tokens := [],
    predefined_names := [], free_variables := [], base_namespace := [] }

/-- Extract the expression from a compile result known to succeed. -/
def exprOrDefault (r : Except Exc Expression) : Expression :=
  match r with
  | .ok e => e
  | .error _ => emptyExpression

/-- The compiled form of the collision example of claim three. -/
def exprG1 : Expression := exprOrDefault (Expression.init "g(1)" testBackend)

/-- The compiled form of the free-variable example of claim seven. -/
def exprAB : Expression := exprOrDefault (Expression.init "a + b" testBackend)

/-- The effective environment of the claim seven example. -/
def envAB : Env :=
  match exprAB.effective_namespace [("a", Value.int 1)] with
  | .ok env => env
  | .error _ => []

/-- The effective environment of the claim ten witness instance. -/
def envG1 : Env :=
  match exprG1.effective_namespace [] with
  | .ok env => env
  | .error _ => []

-- Helper lemmas about the scanner step.

theorem applyGap_prev (st : ScanState) (t : Token) : (applyGap st t).prev = st.prev := by
  unfold applyGap
  split
  · rfl
  · split <;> rfl

theorem applyGap_available (st : ScanState) (t : Token) :
    (applyGap st t).available = st.available := by
  unfold applyGap
  split
  · rfl
  · split <;> rfl

theorem scanStep_illegal_method (b : Backend) (st : ScanState) (t p : Token)
    (ht : t.type = .NAME) (hprev : st.prev = some p) (hdot : p.string = ".")
    (hcont : b.allow_methods.contains t.string = false) :
    scanStep b st t = .error (.pinasExpressionError t ("Illegal method ." ++ t.string)) := by
  unfold scanStep scanChecks
  rw [applyGap_prev, hprev]
  simp at hcont
  simp [ht, hdot, hcont]

theorem scanStep_no_such_param (b : Backend) (st : ScanState) (t p : Token)
    (ht : t.type = .OP) (hs : t.string = "=") (hprev : st.prev = some p)
    (hp : p.type = .NAME) (hcont : st.available.contains p.string = false) :
    scanStep b st t = .error (.pinasExpressionError t ("No such named parameter: " ++ p.string)) := by
  unfold scanStep scanChecks
  rw [applyGap_prev, applyGap_available, hprev]
  simp at hcont
  simp [ht, hs, hp, hcont, show ("=").back = '=' by decide]

theorem scanStep_param_ok (b : Backend) (st : ScanState) (t p : Token)
    (ht : t.type = .OP) (hs : t.string = "=") (hprev : st.prev = some p)
    (hp : p.type = .NAME) (hcont : st.available.contains p.string = true) :
    isOkE (scanStep b st t) = true := by
  unfold scanStep scanChecks
  rw [applyGap_prev, applyGap_available, hprev]
  simp at hcont
  simp [ht, hs, hp, hcont, isOkE, show ("=").back = '=' by decide]

theorem scanStep_illegal_op (b : Backend) (st : ScanState) (t : Token)
    (ht : t.type = .OP) (hback : t.string.back = '=')
    (hcont : (["=", "==", "!=", "<=", ">="] : List String).contains t.string = false) :
    scanStep b st t = .error (.pinasExpressionError t ("Illegal operator " ++ t.string)) := by
  simp at hcont
  push_neg at hcont
  obtain ⟨h1, h2, h3, h4, h5⟩ := hcont
  unfold scanStep scanChecks
  simp [ht, hback, h1, h2, h3, h4, h5]

theorem scanTokens_append (b : Backend) (l1 l2 : List Token) (st : ScanState) :
    scanTokens b st (l1 ++ l2) =
      match scanTokens b st l1 with
      | .ok st2 => scanTokens b st2 l2
      | .error e => .error e := by
  induction l1 generalizing st with
  | nil => simp [scanTokens]
  | cons t ts ih =>
    simp only [List.cons_append, scanTokens]
    cases h : scanStep b st t with
    | error e => rfl
    | ok st2 => exact ih st2

-- Claim theorems.

/-- C1 counterexample: a host module that exports a function under the
blacklisted name eval still constructs a Backend successfully, and the
name becomes a registered predefined name; the blacklist is only checked
against the allowed builtin names. -/
theorem c1_counterexample :
    isOkE (Backend.init builtinsSmall [("eval", gVal)] (some ["True"]) none none) = true ∧
    (Backend.init builtinsSmall [("eval", gVal)] (some ["True"]) none none).map
      (fun b => b.predefined_names.contains "eval") = .ok true :=
  ⟨rfl, rfl⟩

/-- C1 amended: Backend construction fails with ValueError whenever the
allowed-builtin-names override contains a name of the fixed blacklist;
names arriving through the exported table of the host module are not
checked against the blacklist. -/
theorem c1_blacklist_override (builtinsMod module : List (String × Value))
    (abn : List String) (akw amth : Option (List String)) (n : String)
    (hmem : n ∈ abn) (hblk : n ∈ known_unsafe_builtins) :
    Backend.init builtinsMod module (some abn) akw amth = .error (.valueError "") := by
  have hany : abn.any (fun m => known_unsafe_builtins.contains m) = true := by
    refine List.any_eq_true.mpr ⟨n, hmem, ?_⟩
    exact List.elem_iff.mpr hblk
  unfold Backend.init
  dsimp only [Option.getD]
  rw [hany]
  rfl

/-- C1 witness for the amended statement at a concrete input. -/
theorem c1_blacklist_override_witness :
    Backend.init builtinsSmall moduleFG (some ["True", "eval"]) none none =
      .error (.valueError "") :=
  c1_blacklist_override builtinsSmall moduleFG ["True", "eval"] none none "eval"
    (by decide) (by decide)

/-- C2 counterexample: the text of one number followed by a dangling
plus sign tokenizes without an error token, so Expression construction
succeeds, and a syntax error is raised only at evaluation time. -/
theorem c2_counterexample :
    isOkE (Expression.init "1 +" testBackend) = true ∧
    compileEval "1 +" testBackend [] = .error (.fromEval .pySyntaxError) :=
  ⟨rfl, rfl⟩

/-- C2 amended: every sandbox-rule violation is reported as a
PinasExpressionError during Expression construction and evaluation never
produces one, but a SyntaxError can still arise at evaluation time for
text that tokenizes cleanly, as the constructor docstring itself
states. -/
theorem c2_eval_no_expression_error :
    (∀ (e : Expression) (ns : Env), isExprError (e.eval ns) = false) ∧
    isOkE (Expression.init "1 +" testBackend) = true ∧
    compileEval "1 +" testBackend [] = .error (.fromEval .pySyntaxError) := by
  refine ⟨?_, rfl, rfl⟩
  intro e ns
  unfold Expression.eval
  cases h1 : e.effective_namespace ns with
  | error m => rfl
  | ok eff =>
    dsimp only
    cases h2 : pyEval e.expr eff with
    | ok v => rfl
    | error ee =>
      cases ee with
      | pyNameError nm =>
        dsimp only
        split <;> rfl
      | pySyntaxError => rfl
      | pyTypeError m => rfl
      | pinasNameError l => rfl
      | recursionError => rfl

/-- C3 counterexample: the namespace supplies a value for g, a
registry-bound name referenced in the expression, yet evaluation
succeeds using the registered g and silently ignores the namespace
entry instead of failing with an ambiguity error. -/
theorem c3_counterexample :
    compileEval "g(1)" testBackend [("g", Value.int 99)] = .ok (.int 1) ∧
    (Expression.init "g(1)" testBackend).map
      (fun e => e.predefined_names.contains "g") = .ok true ∧
    alContains [("g", Value.int 99)] "g" = true :=
  ⟨rfl, rfl, rfl⟩

/-- C4: an identifier whose previous kept token is the dot fails the
scan with the illegal-method PinasExpressionError at that token when it
is not an allowed method name; the failure also holds for any token
stream whose prefix scans cleanly, and concretely for the method text
foo, so evaluation is never reached. -/
theorem c4_illegal_method :
    (∀ (b : Backend) (st : ScanState) (t p : Token),
        t.type = .NAME → st.prev = some p → p.string = "." →
        b.allow_methods.contains t.string = false →
        scanStep b st t = .error (.pinasExpressionError t ("Illegal method ." ++ t.string))) ∧
    (∀ (b : Backend) (pre post : List Token) (t p : Token) (st : ScanState),
        scanTokens b startScanState pre = .ok st →
        t.type = .NAME → st.prev = some p → p.string = "." →
        b.allow_methods.contains t.string = false →
        scanTokens b startScanState (pre ++ t :: post) =
          .error (.pinasExpressionError t ("Illegal method ." ++ t.string))) ∧
    Expression.init "(1).foo" testBackend =
      .error (.pinasExpressionError ⟨.NAME, "foo", ⟨1, 4⟩, ⟨1, 7⟩⟩ "Illegal method .foo") := by
  refine ⟨scanStep_illegal_method, ?_, rfl⟩
  intro b pre post t p st hpre ht hprev hdot hcont
  rw [scanTokens_append, hpre]
  show scanTokens b st (t :: post) = _
  unfold scanTokens
  rw [scanStep_illegal_method b st t p ht hprev hdot hcont]

/-- C4 witness: the step statement applied at a concrete state and
token. -/
theorem c4_illegal_method_witness :
    scanStep testBackend
      ⟨[], [], [], [], [], ⟨1, 1⟩, some ⟨.OP, ".", ⟨1, 0⟩, ⟨1, 1⟩⟩⟩
      ⟨.NAME, "zz", ⟨1, 1⟩, ⟨1, 3⟩⟩ =
      .error (.pinasExpressionError ⟨.NAME, "zz", ⟨1, 1⟩, ⟨1, 3⟩⟩ "Illegal method .zz") :=
  c4_illegal_method.1 testBackend
    ⟨[], [], [], [], [], ⟨1, 1⟩, some ⟨.OP, ".", ⟨1, 0⟩, ⟨1, 1⟩⟩⟩
    ⟨.NAME, "zz", ⟨1, 1⟩, ⟨1, 3⟩⟩ ⟨.OP, ".", ⟨1, 0⟩, ⟨1, 1⟩⟩ rfl rfl rfl (by decide)

/-- C5 counterexample: in the expression g of keyword x bound to f of
one, the name x is an eligible named parameter of f and f is referenced
in the expression, yet compilation fails, because eligibility is
accumulated only from functions referenced before the equal sign. -/
theorem c5_counterexample :
    Expression.init "g(x=f(1))" testBackend =
      .error (.pinasExpressionError ⟨.OP, "=", ⟨1, 3⟩, ⟨1, 4⟩⟩ "No such named parameter: x") ∧
    (npnLookup testBackend "f").contains "x" = true ∧
    (pyTokenize "g(x=f(1))").any
      (fun t => decide (t.type = .NAME) && decide (t.string = "f")) = true :=
  ⟨rfl, rfl, rfl⟩

/-- C5 amended: a bare equal sign is accepted exactly when the previous
kept token is an identifier among the named parameters accumulated from
the names already seen, and it fails with the no-such-named-parameter
PinasExpressionError otherwise; every other operator token ending in the
equal sign is rejected as an illegal operator except the four comparison
operators. -/
theorem c5_named_param_rules :
    (∀ (b : Backend) (st : ScanState) (t p : Token),
        t.type = .OP → t.string = "=" → st.prev = some p → p.type = .NAME →
        st.available.contains p.string = false →
        scanStep b st t =
          .error (.pinasExpressionError t ("No such named parameter: " ++ p.string))) ∧
    (∀ (b : Backend) (st : ScanState) (t p : Token),
        t.type = .OP → t.string = "=" → st.prev = some p → p.type = .NAME →
        st.available.contains p.string = true →
        isOkE (scanStep b st t) = true) ∧
    (∀ (b : Backend) (st : ScanState) (t : Token),
        t.type = .OP → t.string.back = '=' →
        (["=", "==", "!=", "<=", ">="] : List String).contains t.string = false →
        scanStep b st t = .error (.pinasExpressionError t ("Illegal operator " ++ t.string))) :=
  ⟨scanStep_no_such_param, scanStep_param_ok, scanStep_illegal_op⟩

/-- C5 witness: the three rules applied at concrete states and
tokens. -/
theorem c5_named_param_rules_witness :
    scanStep testBackend
      ⟨[], [], ["x"], [], [], ⟨1, 1⟩, some ⟨.NAME, "y", ⟨1, 0⟩, ⟨1, 1⟩⟩⟩
      ⟨.OP, "=", ⟨1, 1⟩, ⟨1, 2⟩⟩ =
      .error (.pinasExpressionError ⟨.OP, "=", ⟨1, 1⟩, ⟨1, 2⟩⟩ "No such named parameter: y") ∧
    isOkE (scanStep testBackend
      ⟨[], [], ["x"], [], [], ⟨1, 1⟩, some ⟨.NAME, "x", ⟨1, 0⟩, ⟨1, 1⟩⟩⟩
      ⟨.OP, "=", ⟨1, 1⟩, ⟨1, 2⟩⟩) = true ∧
    scanStep testBackend startScanState ⟨.OP, ":=", ⟨1, 0⟩, ⟨1, 2⟩⟩ =
      .error (.pinasExpressionError ⟨.OP, ":=", ⟨1, 0⟩, ⟨1, 2⟩⟩ "Illegal operator :=") :=
  ⟨c5_named_param_rules.1 testBackend
      ⟨[], [], ["x"], [], [], ⟨1, 1⟩, some ⟨.NAME, "y", ⟨1, 0⟩, ⟨1, 1⟩⟩⟩
      ⟨.OP, "=", ⟨1, 1⟩, ⟨1, 2⟩⟩ ⟨.NAME, "y", ⟨1, 0⟩, ⟨1, 1⟩⟩ rfl rfl rfl rfl (by decide),
   c5_named_param_rules.2.1 testBackend
      ⟨[], [], ["x"], [], [], ⟨1, 1⟩, some ⟨.NAME, "x", ⟨1, 0⟩, ⟨1, 1⟩⟩⟩
      ⟨.OP, "=", ⟨1, 1⟩, ⟨1, 2⟩⟩ ⟨.NAME, "x", ⟨1, 0⟩, ⟨1, 1⟩⟩ rfl rfl rfl rfl (by decide),
   c5_named_param_rules.2.2 testBackend startScanState ⟨.OP, ":=", ⟨1, 0⟩, ⟨1, 2⟩⟩
      rfl (by decide) (by decide)⟩

/-- C6: for the registered f of positional x and implied keyword-only d,
evaluating f of ten with d three in the namespace yields thirteen,
omitting d yields a PinasNameError naming exactly d, and an explicit
keyword argument for d wins over the namespace value. -/
theorem c6_implied_params :
    compileEval "f(10)" testBackend [("d", Value.int 3)] = .ok (.int 13) ∧
    compileEval "f(10)" testBackend [] = .error (.fromEval (.pinasNameError ["d"])) ∧
    compileEval "g(1) + f(10, d=5)" testBackend [("d", Value.int 3)] = .ok (.int 16) :=
  ⟨rfl, rfl, rfl⟩

/-- C8: the compiled lazy conditional evaluates to one against the empty
namespace although its untaken branch names an unsupplied variable, and
in general the result of a conditional whose condition is truthy does
not depend on the untaken branch. -/
theorem c8_laziness :
    compileEval "1 if True else undefined_var" testBackend [] = .ok (.int 1) ∧
    (∀ (fuel : Nat) (c a bb bb' : PyAst) (env : Env) (v : Value),
        evalAst fuel c env = .ok v → truthy v = true →
        evalAst (fuel + 1) (.ternary a c bb) env =
          evalAst (fuel + 1) (.ternary a c bb') env) := by
  refine ⟨rfl, ?_⟩
  intro fuel c a bb bb' env v h1 h2
  simp [evalAst, h1, h2]

/-- C8 witness: the laziness statement applied at a concrete
conditional. -/
theorem c8_laziness_witness :
    evalAst 2 (.ternary (.num 1) (.boolLit true) (.name "zzz")) [] =
      evalAst 2 (.ternary (.num 1) (.boolLit true) (.num 0)) [] :=
  c8_laziness.2 1 (.boolLit true) (.num 1) (.name "zzz") (.num 0) [] (.bool true) rfl rfl

/-- C9 counterexample: the two-space run between the number and the plus
sign on the first line survives normalization verbatim, so same-line
layout is not collapsed to single spaces. -/
theorem c9_counterexample :
    (Expression.init "1  +\n2" testBackend).map (fun e => e.expr) = .ok "1  +  2" ∧
    (Expression.init "1  +\n2" testBackend).map (fun e => e.expr) ≠ .ok "1 +  2" := by
  refine ⟨rfl, ?_⟩
  intro h
  rw [show (Expression.init "1  +\n2" testBackend).map (fun e => e.expr) = .ok "1  +  2"
    from rfl] at h
  injection h with h2
  exact absurd h2 (by decide)

/-- C9 amended: same-line gaps keep their original width, a line break
contributes a fixed two-space gap per skipped boundary, comments are
dropped from the rebuilt text, and the normalized expression evaluates
to the same value as the original. -/
theorem c9_normalization :
    (Expression.init "1  +\n2" testBackend).map (fun e => e.expr) = .ok "1  +  2" ∧
    compileEval "1  +\n2" testBackend [] = .ok (.int 3) ∧
    (Expression.init "1\n# note\n+ 2" testBackend).map (fun e => e.expr) = .ok "1      + 2" ∧
    compileEval "1\n# note\n+ 2" testBackend [] = .ok (.int 3) :=
  ⟨rfl, rfl, rfl, rfl⟩

/-- C7: when the evaluator fails with a NameError, eval reports a
PinasNameError carrying exactly the free variables the namespace did not
supply whenever the failing name is among them, and propagates the
original failure unchanged otherwise; concretely a plus b against a
namespace holding only a fails with a PinasNameError listing exactly
b. -/
theorem c7_nameerror_set :
    (∀ (e : Expression) (ns env : Env) (nm : String),
        e.effective_namespace ns = .ok env →
        pyEval e.expr env = .error (.pyNameError nm) →
        e.eval ns =
          (if (e.free_variables.filter (fun x => !(alContains ns x))).contains nm
           then .error (.fromEval (.pinasNameError
                  (e.free_variables.filter (fun x => !(alContains ns x)))))
           else .error (.fromEval (.pyNameError nm)))) ∧
    compileEval "a + b" testBackend [("a", Value.int 1)] =
      .error (.fromEval (.pinasNameError ["b"])) := by
  refine ⟨?_, rfl⟩
  intro e ns env nm h1 h2
  unfold Expression.eval
  rw [h1]
  dsimp only
  rw [h2]

/-- C7 witness: the reporting rule applied to the concrete compiled
expression a plus b. -/
theorem c7_nameerror_set_witness :
    exprAB.eval [("a", Value.int 1)] =
      (if (exprAB.free_variables.filter
            (fun x => !(alContains [("a", Value.int 1)] x))).contains "b"
       then .error (.fromEval (.pinasNameError
              (exprAB.free_variables.filter
                (fun x => !(alContains [("a", Value.int 1)] x)))))
       else .error (.fromEval (.pyNameError "b"))) :=
  c7_nameerror_set.1 exprAB [("a", Value.int 1)] envAB "b" rfl rfl

-- Lemmas about environment writes, used by the ambiguity and the
-- builtins invariants.

theorem alLookup_alInsert_ne {α : Type} (l : List (String × α)) (k k' : String) (v : α)
    (h : k' ≠ k) : alLookup (alInsert l k v) k' = alLookup l k' := by
  induction l with
  | nil => simp [alInsert, alLookup, Ne.symm h]
  | cons hd tl ih =>
    obtain ⟨k0, v0⟩ := hd
    by_cases h0 : k0 = k
    · subst h0
      simp [alInsert, alLookup, Ne.symm h]
    · simp only [alInsert, alLookup, if_neg h0]
      by_cases h1 : k0 = k'
      · simp [h1]
      · simp [h1, ih]

theorem alContains_alInsert_ne {α : Type} (l : List (String × α)) (k k' : String) (v : α)
    (h : k' ≠ k) : alContains (alInsert l k v) k' = alContains l k' := by
  unfold alContains
  rw [alLookup_alInsert_ne l k k' v h]

theorem alLookup_some_contains {α : Type} (l : List (String × α)) (k : String) (d : α)
    (h : alLookup l k = some d) : alContains l k = true := by
  unfold alContains
  rw [h]
  rfl

theorem addFreeVars_isOk_iff (ns : Env) :
    ∀ (l : List String) (eff : Env), l.Nodup →
      (isOkE (addFreeVars eff l ns) = true ↔ ∀ n ∈ l, alContains eff n = false) := by
  intro l
  induction l with
  | nil =>
    intro eff hnd
    simp [addFreeVars, isOkE]
  | cons n rest ih =>
    intro eff hnd
    rw [List.nodup_cons] at hnd
    obtain ⟨hnotin, hnd2⟩ := hnd
    unfold addFreeVars
    by_cases hc : alContains eff n = true
    · rw [if_pos hc]
      simp only [isOkE]
      constructor
      · intro h; cases h
      · intro hall
        have := hall n (List.mem_cons_self n rest)
        rw [hc] at this
        cases this
    · have hcf : alContains eff n = false := by
        cases hb : alContains eff n
        · rfl
        · exact absurd hb hc
      rw [if_neg hc]
      have hext : ∀ (eff2 : Env),
          (∀ m ∈ rest, alContains eff2 m = alContains eff m) →
          ((∀ m ∈ rest, alContains eff2 m = false) ↔
            ∀ m ∈ n :: rest, alContains eff m = false) := by
        intro eff2 hsame
        constructor
        · intro hr m hm
          rcases List.mem_cons.mp hm with he | hm2
          · rw [he]; exact hcf
          · rw [← hsame m hm2]; exact hr m hm2
        · intro hall m hm
          rw [hsame m hm]
          exact hall m (List.mem_cons_of_mem _ hm)
      cases hl : alLookup ns n with
      | some v =>
        rw [(ih (alInsert eff n v) hnd2)]
        apply hext
        intro m hm
        have hne : m ≠ n := fun he => hnotin (he ▸ hm)
        exact alContains_alInsert_ne eff n m v hne
      | none =>
        rw [(ih eff hnd2)]
        apply hext
        intro m _
        rfl

/-- C3 amended: the ambiguity guard fires exactly when some free
variable of the compiled expression already exists in its base
namespace, independently of which names the caller namespace supplies;
a namespace value for a registry-bound referenced name is silently
ignored rather than rejected. -/
theorem c3_ambiguity_guard (e : Expression) (ns : Env)
    (hnd : e.free_variables.Nodup) :
    isOkE (e.effective_namespace ns) = true ↔
      ∀ n ∈ e.free_variables, alContains e.base_namespace n = false := by
  have key := addFreeVars_isOk_iff ns e.free_variables e.base_namespace hnd
  unfold Expression.effective_namespace
  cases h : addFreeVars e.base_namespace e.free_variables ns with
  | error m =>
    rw [h] at key
    simpa [isOkE] using key
  | ok eff =>
    rw [h] at key
    simpa [isOkE] using key

/-- C3 witness: the guard characterisation applied to the concrete
expression g of one and a namespace that supplies g. -/
theorem c3_ambiguity_guard_witness :
    isOkE (exprG1.effective_namespace [("g", Value.int 99)]) = true ↔
      ∀ n ∈ exprG1.free_variables, alContains exprG1.base_namespace n = false :=
  c3_ambiguity_guard exprG1 [("g", Value.int 99)] (by decide)

-- Lemmas for the builtins invariant.

theorem mem_insertNewStr (l : List String) (x m : String)
    (h : m ∈ insertNewStr l x) : m ∈ l ∨ m = x := by
  unfold insertNewStr at h
  by_cases hc : l.contains x = true
  · rw [if_pos hc] at h
    exact Or.inl h
  · rw [if_neg hc] at h
    rcases List.mem_append.mp h with h1 | h1
    · exact Or.inl h1
    · simp at h1
      exact Or.inr h1

theorem addImpliedOne_fold_pred (bPred : List String) :
    ∀ (iargs : List String) (pf : List String × List String),
      (∀ m ∈ pf.1, bPred.contains m = true) →
      ∀ m ∈ (iargs.foldl (addImpliedOne bPred) pf).1, bPred.contains m = true := by
  intro iargs
  induction iargs with
  | nil => intro pf h; exact h
  | cons ia rest ih =>
    intro pf h
    simp only [List.foldl_cons]
    apply ih
    unfold addImpliedOne
    by_cases hc : bPred.contains ia = true
    · rw [if_pos hc]
      intro m hm
      rcases mem_insertNewStr pf.1 ia m hm with h1 | h1
      · exact h m h1
      · rw [h1]; exact hc
    · rw [if_neg hc]
      exact h

theorem addImplied_pred (bPred : List String) :
    ∀ (sf : List (String × Value)) (pred free : List String),
      (∀ m ∈ pred, bPred.contains m = true) →
      ∀ m ∈ (addImplied bPred sf pred free).1, bPred.contains m = true := by
  intro sf
  induction sf with
  | nil => intro pred free h; exact h
  | cons p rest ih =>
    intro pred free h
    obtain ⟨n, fn⟩ := p
    unfold addImplied
    by_cases hc : pred.contains n = true
    · rw [if_pos hc]
      exact ih _ _ (addImpliedOne_fold_pred bPred (ImpliedArguments fn) (pred, free) h)
    · rw [if_neg hc]
      exact ih _ _ h

theorem buildBase_lookup (pf : Env) (key : String) :
    ∀ (names : List String) (env env' : Env),
      (∀ n ∈ names, n ≠ key) → buildBase pf names env = .ok env' →
      alLookup env' key = alLookup env key := by
  intro names
  induction names with
  | nil =>
    intro env env' _ hb
    unfold buildBase at hb
    injection hb with h
    rw [h]
  | cons n rest ih =>
    intro env env' h hb
    unfold buildBase at hb
    cases hl : alLookup pf n with
    | none => rw [hl] at hb; cases hb
    | some v =>
      rw [hl] at hb
      have hrec := ih (alInsert env n v) env'
        (fun m hm => h m (List.mem_cons_of_mem _ hm)) hb
      rw [hrec]
      exact alLookup_alInsert_ne env n key v (Ne.symm (h n (List.mem_cons_self n rest)))

theorem addFreeVars_lookup (ns : Env) (key : String) (d : Value) :
    ∀ (l : List String) (eff env' : Env),
      alLookup eff key = some d → addFreeVars eff l ns = .ok env' →
      alLookup env' key = some d := by
  intro l
  induction l with
  | nil =>
    intro eff env' hk hb
    unfold addFreeVars at hb
    injection hb with h
    rw [← h]
    exact hk
  | cons n rest ih =>
    intro eff env' hk hb
    unfold addFreeVars at hb
    by_cases hc : alContains eff n = true
    · rw [if_pos hc] at hb; cases hb
    · rw [if_neg hc] at hb
      have hne : n ≠ key := by
        intro he
        rw [he] at hc
        exact hc (alLookup_some_contains eff key d hk)
      cases hl : alLookup ns n with
      | some v =>
        rw [hl] at hb
        refine ih (alInsert eff n v) env' ?_ hb
        rw [alLookup_alInsert_ne eff n key v (Ne.symm hne)]
        exact hk
      | none =>
        rw [hl] at hb
        exact ih eff env' hk hb

theorem wrap_foldl_lookup (w : String × Value → Value) (key : String) :
    ∀ (l : List (String × Value)) (acc : Env),
      (∀ p ∈ l, p.1 ≠ key) →
      alLookup
        (l.foldl
          (fun acc p => if alContains acc p.1 then alInsert acc p.1 (w p) else acc)
          acc) key = alLookup acc key := by
  intro l
  induction l with
  | nil => intro acc _; rfl
  | cons p rest ih =>
    intro acc h
    simp only [List.foldl_cons]
    rw [ih _ (fun q hq => h q (List.mem_cons_of_mem _ hq))]
    by_cases hc : alContains acc p.1 = true
    · rw [if_pos hc]
      exact alLookup_alInsert_ne acc p.1 key (w p)
        (Ne.symm (h p (List.mem_cons_self p rest)))
    · rw [if_neg hc]

theorem wrapImplied_lookup (sf : List (String × Value)) (eff : Env) (key : String)
    (h : ∀ p ∈ sf, p.1 ≠ key) :
    alLookup (wrapImplied sf eff) key = alLookup eff key := by
  unfold wrapImplied
  exact wrap_foldl_lookup (fun p => SupplyImpliedArguments p.2 sf eff) key sf eff h

/-- C10: for any backend whose predefined names and implied-argument
table avoid the builtins key, every successfully compiled expression
binds the builtins key of its base namespace to the empty dict, and
every successfully built effective environment still binds it to the
empty dict, so no evaluation of the compiled expression can reach a host
builtin that was not whitelisted into the environment. -/
theorem c10_builtins_guard (s : String) (b : Backend) (e : Expression) (ns env : Env)
    (hinit : Expression.init s b = .ok e)
    (hb : b.predefined_names.contains "__builtins__" = false)
    (hsf : ∀ p ∈ b.supplyImpliedFor, p.1 ≠ "__builtins__")
    (heff : e.effective_namespace ns = .ok env) :
    alLookup e.base_namespace "__builtins__" = some Value.emptyDict ∧
    alLookup env "__builtins__" = some Value.emptyDict := by
  unfold Expression.init at hinit
  cases hscan : scanTokens b startScanState (pyTokenize s) with
  | error ex => rw [hscan] at hinit; cases hinit
  | ok st =>
    rw [hscan] at hinit
    unfold mkExpression at hinit
    dsimp only at hinit
    split at hinit
    case h_2 => cases hinit
    case h_1 base hbase =>
      injection hinit with he
      subst he
      dsimp only at heff ⊢
      have hpred0 : ∀ m ∈ (st.unbound.filter
            (fun n => b.predefined_names.contains n)).filter
            (fun n => !(b.allow_keywords_and_methods.contains n)),
          b.predefined_names.contains m = true := by
        intro m hm
        exact (List.mem_filter.mp (List.mem_filter.mp hm).1).2
      have hkeys : ∀ m ∈ (addImplied b.predefined_names b.supplyImpliedFor
            ((st.unbound.filter (fun n => b.predefined_names.contains n)).filter
              (fun n => !(b.allow_keywords_and_methods.contains n)))
            ((st.unbound.filter (fun n => !(b.predefined_names.contains n))).filter
              (fun n => !(b.allow_keywords_and_methods.contains n)))).1,
          m ≠ "__builtins__" := by
        intro m hm he2
        have hmp := addImplied_pred b.predefined_names b.supplyImpliedFor _ _ hpred0 m hm
        rw [he2, hb] at hmp
        cases hmp
      have hbl : alLookup base "__builtins__" = some Value.emptyDict := by
        rw [buildBase_lookup b.predefined_functions "__builtins__" _
          [("__builtins__", Value.emptyDict)] base hkeys hbase]
        rfl
      refine ⟨hbl, ?_⟩
      unfold Expression.effective_namespace at heff
      dsimp only at heff
      split at heff
      case h_1 => cases heff
      case h_2 eff hfv =>
        injection heff with henv
        rw [← henv]
        rw [wrapImplied_lookup b.supplyImpliedFor eff "__builtins__" hsf]
        exact addFreeVars_lookup ns "__builtins__" Value.emptyDict _ base eff hbl hfv

/-- C10 witness: the invariant applied to the concrete compiled
expression g of one under the empty namespace. -/
theorem c10_builtins_guard_witness :
    alLookup exprG1.base_namespace "__builtins__" = some Value.emptyDict ∧
    alLookup envG1 "__builtins__" = some Value.emptyDict :=
  c10_builtins_guard "g(1)" testBackend exprG1 [] envG1 rfl (by decide)
    (by decide) rfl
